import Mathlib

/-!
Shallow embedding of the task-scheduling and timezone-normalization core of
`src/telegram_bot.py` (a Telegram reminder bot), together with proofs of the
specification's claims about it.

Modelling conventions:
* A `pytz`-aware `datetime` is modelled as `AwareDT`: the absolute UTC instant
  (integer seconds) together with the zone tag it is currently represented in.
  `datetime.astimezone(tz)` re-anchors the representation and preserves the
  instant; comparison and subtraction of aware datetimes act on the instants.
  `tz.localize(naive)` attaches a zone to a naive timestamp, shifting it by the
  zone's UTC offset; the offset function is an abstract parameter (`pytz` data).
* Python library functions that the code calls but whose internals are outside
  the repository (`datetime.strptime`, zone offsets, `pytz.all_timezones`, the
  OpenAI oracle) are parameters of the embedded functions.
* Python `dict`s (the task store `user_tasks`, `context.user_data`) are
  insertion-ordered association lists with dict update/delete semantics.
* The `telegram.ext` job queue is a list of pending jobs; `run_once` appends a
  named job, `get_jobs_by_name` + `schedule_removal` filters a name out, and a
  fired job leaves the queue.
* Outbound chat messages are abstracted to the data they are rendered from.
-/

namespace TelegramBot

/-- Aware datetime: the absolute UTC instant in seconds together with the
timezone the value is currently represented in (models a `pytz`-aware
`datetime`). -/
structure AwareDT where
  utc : Int
  tz : String
deriving DecidableEq, Repr

/-- Model of `datetime.astimezone`: re-anchor the representation to another
zone, preserving the absolute instant. -/
def astimezone (d : AwareDT) (z : String) : AwareDT := ⟨d.utc, z⟩

/-- Model of `tz.localize(naive)`: interpret a naive timestamp (seconds-valued)
in zone `z`, whose UTC offset at that local time is given by `offset`. -/
def localize (offset : String → Int → Int) (z : String) (naive : Int) : AwareDT :=
  ⟨naive - offset z naive, z⟩

/-- One task record, as stored in `user_tasks[user_id][task_id]`
(`{'id': ..., 'description': ..., 'time': ...}`). -/
structure Task where
  id : String
  description : String
  time : AwareDT
deriving DecidableEq, Repr

/-- One pending job of `context.job_queue`: its registration name, and the
`data={'user_id': ..., 'task_id': ...}` payload plus the `when=` delay passed
to `run_once`. -/
structure Job where
  name : String
  user : Nat
  taskId : String
  delay : Int
deriving DecidableEq, Repr

/-- The per-user `context.user_data` keys the core reads and writes:
`'timezone'` and `'delete_task_id'`. -/
structure UserData where
  timezone : Option String
  deleteTaskId : Option String
deriving DecidableEq, Repr

/-- Global state: the `user_tasks` store (user id to insertion-ordered task
list), the pending job queue, and each user's `user_data`. -/
structure BotState where
  user_tasks : List (Nat × List Task)
  jobs : List Job
  userData : List (Nat × UserData)
deriving DecidableEq, Repr

/-- Model of `user_tasks.get(user_id, {})`, as the insertion-ordered value
list of the inner dict. -/
def lookupTasks (st : BotState) (uid : Nat) : List Task :=
  ((st.user_tasks.find? (fun p => p.1 == uid)).map Prod.snd).getD []

/-- Dict update `user_tasks[user_id] = l` (replace the entry, or append a new
key at the end). -/
def setTasks (st : BotState) (uid : Nat) (l : List Task) : BotState :=
  if st.user_tasks.any (fun p => p.1 == uid) then
    { st with user_tasks := st.user_tasks.map (fun p => if p.1 == uid then (uid, l) else p) }
  else
    { st with user_tasks := st.user_tasks ++ [(uid, l)] }

/-- Read a user's `context.user_data` (both keys absent for a fresh user). -/
def getUD (st : BotState) (uid : Nat) : UserData :=
  ((st.userData.find? (fun p => p.1 == uid)).map Prod.snd).getD ⟨none, none⟩

/-- Write a user's `context.user_data`. -/
def setUD (st : BotState) (uid : Nat) (ud : UserData) : BotState :=
  if st.userData.any (fun p => p.1 == uid) then
    { st with userData := st.userData.map (fun p => if p.1 == uid then (uid, ud) else p) }
  else
    { st with userData := st.userData ++ [(uid, ud)] }

/-- Dict insert `tasks[task_id] = task` on the inner per-user dict. -/
def dictSetTask (l : List Task) (t : Task) : List Task :=
  if l.any (fun x => x.id == t.id) then l.map (fun x => if x.id == t.id then t else x)
  else l ++ [t]

/-- Dict delete `del tasks[task_id]` on the inner per-user dict (keys are
unique, so removing the first match is dict deletion). -/
def dictDelTask (l : List Task) (tid : String) : List Task :=
  l.eraseP (fun x => x.id == tid)

/-- Model of `job.schedule_removal()` applied to every job returned by
`context.job_queue.get_jobs_by_name(nm)`. -/
def cancelJobs (jobs : List Job) (nm : String) : List Job :=
  jobs.filter (fun j => j.name != nm)

/-- Model of `context.job_queue.run_once(...)`: register one more pending
job. -/
def runOnce (jobs : List Job) (j : Job) : List Job :=
  jobs ++ [j]

/-! ## Timezone Resolver (`get_timezone_via_gpt`, lines 48-85) -/

/-- Python `str.strip(chars)`: drop the given characters from both ends. -/
def pyStrip (cs : List Char) (s : String) : String :=
  String.mk (((s.data.dropWhile (fun c => cs.contains c)).reverse.dropWhile
    (fun c => cs.contains c)).reverse)

/-- The characters stripped by argument-less Python `str.strip()`
(ASCII whitespace). -/
def wsChars : List Char :=
  [Char.ofNat 32, Char.ofNat 9, Char.ofNat 10, Char.ofNat 13, Char.ofNat 11, Char.ofNat 12]

/-- Embedding of `get_timezone_via_gpt(city, current_time)` after the oracle
call: `reply` is the oracle's outcome (`Except.error` covers any exception on
the way to `content`, all caught by the function's `except` and turned into
`None`); `allTimezones` stands for `pytz.all_timezones`. The code strips the
reply (`content = ....strip()`), strips surrounding double and single quotes
and whitespace again, and accepts only members of `allTimezones`. -/
def get_timezone_via_gpt (allTimezones : List String) (reply : Except Unit String) :
    Option String :=
  match reply with
  | .error _ => none
  | .ok raw =>
    let content := pyStrip wsChars raw
    let timezone := pyStrip wsChars (pyStrip [Char.ofNat 39] (pyStrip [Char.ofNat 34] content))
    if allTimezones.contains timezone then some timezone else none

/-! ## Task-Time Extractor (`extract_task_and_time`, lines 88-120) -/

/-- The shape of a parsed oracle reply as far as the extractor inspects it:
either a JSON object (field values taken as strings, which is the only case
the rest of the code can consume) or some other well-formed JSON value, on
which `result.get(...)` raises and the `except` returns `(None, None)`. -/
inductive PyJson where
  | obj (fields : List (String × String))
  | nonObj
deriving DecidableEq, Repr

/-- Python `dict.get(k)` on a parsed JSON object; with duplicate keys
`json.loads` keeps the last occurrence. -/
def jsonGet (fields : List (String × String)) (k : String) : Option String :=
  (fields.reverse.find? (fun p => p.1 == k)).map Prod.snd

/-- Embedding of `extract_task_and_time(prompt, current_time)` after the
oracle call: `Except.error` covers an oracle exception as well as a
`json.JSONDecodeError` from `json.loads(content)`; both handlers return
`(None, None)`. On a non-object JSON value, `result.get('task')` raises
`AttributeError`, caught by the generic handler, giving `(None, None)`.
On an object the code returns `(result.get('task'), result.get('time'))`. -/
def extract_task_and_time (reply : Except Unit PyJson) : Option String × Option String :=
  match reply with
  | .error _ => (none, none)
  | .ok .nonObj => (none, none)
  | .ok (.obj fields) => (jsonGet fields "task", jsonGet fields "time")

/-! ## Reminder fire handler (`send_reminder`, lines 488-512) -/

/-- Embedding of `send_reminder(context)` for a job with payload
`(uid, tid)`. `deliveryOk = false` models `context.bot.send_message` raising:
the exception is caught and logged, and the task is still deleted afterwards.
The first component lists the notifications handed to the transport,
abstracted to the task the message is rendered from. -/
def send_reminder (deliveryOk : Bool) (uid : Nat) (tid : String) (st : BotState) :
    List (Nat × Task) × BotState :=
  match (lookupTasks st uid).find? (fun t => t.id == tid) with
  | some task =>
    let delivered := if deliveryOk then [(uid, task)] else []
    (delivered, setTasks st uid (dictDelTask (lookupTasks st uid) tid))
  | none => ([], st)

/-! ## Timezone set / Timezone-Change Reconciler (`receive_city`, lines 188-243) -/

/-- One iteration of the reconciliation loop (lines 217-230) for task `t`:
convert the stored time to UTC and re-anchor it in the new zone, cancel every
job registered under the task's id, and `run_once` a fresh job named by the
task id with delay `task['time'] - datetime.now(new_timezone)` (a difference
of instants, `nowUtc` being the current instant). -/
def reconcileTask (uid : Nat) (newTz : String) (nowUtc : Int) (jobs : List Job) (t : Task) :
    Task × List Job :=
  let task_time_utc := astimezone t.time "UTC"
  let t' := { t with time := astimezone task_time_utc newTz }
  let jobs' := cancelJobs jobs t.id
  (t', runOnce jobs' ⟨t.id, uid, t.id, t'.time.utc - nowUtc⟩)

/-- The reconciliation loop over the user's task list, threading the job
queue. -/
def reconcileTasks (uid : Nat) (newTz : String) (nowUtc : Int) :
    List Task → List Job → List Task × List Job
  | [], jobs => ([], jobs)
  | t :: rest, jobs =>
    let p := reconcileTask uid newTz nowUtc jobs t
    let q := reconcileTasks uid newTz nowUtc rest p.2
    (p.1 :: q.1, q.2)

/-- The conversation-state value `receive_city` returns to the framework. -/
inductive ConvState where
  | askCity
  | postTimezoneSet
deriving DecidableEq, Repr

/-- Embedding of `receive_city(update, context)` after the resolver call:
`resolvedTz` is what `get_timezone_via_gpt` returned and `nowUtc` the current
instant. On failure the user is re-prompted and nothing changes. On success
the timezone is stored in `user_data`, and if a previous timezone existed
(non-empty, by Python truthiness) and differs from the new one, every task of
the user is reconciled (lines 213-231). -/
def receive_city (uid : Nat) (resolvedTz : Option String) (nowUtc : Int) (st : BotState) :
    ConvState × BotState :=
  match resolvedTz with
  | none => (.askCity, st)
  | some tzStr =>
    let ud := getUD st uid
    let previous := ud.timezone
    let st1 := setUD st uid { ud with timezone := some tzStr }
    let needsReconcile :=
      match previous with
      | some p => p != "" && p != tzStr
      | none => false
    if needsReconcile then
      let r := reconcileTasks uid tzStr nowUtc (lookupTasks st1 uid) st1.jobs
      (.postTimezoneSet, setTasks { st1 with jobs := r.2 } uid r.1)
    else
      (.postTimezoneSet, st1)

/-! ## Task creation pipeline (`handle_message`, lines 400-485) -/

/-- Outcome of `handle_message`, one constructor per early `return` plus the
success path. -/
inductive CreateResult where
  | noTimezone
  | extractFailed
  | badFormat
  | notFuture
  | created (t : Task)
deriving DecidableEq, Repr

/-- Embedding of `handle_message(update, context)` after the oracle call:
`extracted` is the pair returned by `extract_task_and_time`, `strptime`
models `datetime.strptime(_, '%Y-%m-%d %H:%M:%S')` (`none` is `ValueError`),
`offset` the `pytz` zone offsets, `nowUtc` the current instant
(`datetime.now(user_timezone)` is that instant represented in the user's
zone) and `freshId` the value of `str(uuid.uuid4())[:8]`. The code rejects
when no timezone is set, when extraction failed (Python falsiness: `None` or
empty string), when the time string does not parse, and when the localized
time is not strictly in the future; otherwise it stores the task and
schedules a job named by the task id. -/
def handle_message (strptime : String → Option Int) (offset : String → Int → Int)
    (uid : Nat) (extracted : Option String × Option String) (nowUtc : Int)
    (freshId : String) (st : BotState) : CreateResult × BotState :=
  match (getUD st uid).timezone with
  | none => (.noTimezone, st)
  | some tzStr =>
    match extracted with
    | (some desc, some timeStr) =>
      if desc == "" || timeStr == "" then (.extractFailed, st)
      else
        match strptime timeStr with
        | none => (.badFormat, st)
        | some naive =>
          let task_time := localize offset tzStr naive
          if task_time.utc ≤ nowUtc then (.notFuture, st)
          else
            let task : Task := ⟨freshId, desc, task_time⟩
            let st1 := setTasks st uid (dictSetTask (lookupTasks st uid) task)
            let st2 := { st1 with
              jobs := runOnce st1.jobs ⟨freshId, uid, freshId, task_time.utc - nowUtc⟩ }
            (.created task, st2)
    | _ => (.extractFailed, st)

/-! ## Deletion (`button_handler`, `delete_...` / `confirm_delete` /
`cancel_delete` branches, lines 327-395) -/

/-- Outcome of the `delete_<id>` selection branch. -/
inductive SelectDeleteResult where
  | confirmPrompt (desc : String)
  | alreadyGone
deriving DecidableEq, Repr

/-- Embedding of the `query.data.startswith('delete_')` branch (lines
327-352): if the task exists, remember its id in
`user_data['delete_task_id']` and ask for confirmation; otherwise report it
as not found or already deleted. -/
def select_delete (uid : Nat) (tid : String) (st : BotState) : SelectDeleteResult × BotState :=
  match (lookupTasks st uid).find? (fun t => t.id == tid) with
  | some task =>
    let ud := getUD st uid
    (.confirmPrompt task.description, setUD st uid { ud with deleteTaskId := some tid })
  | none => (.alreadyGone, st)

/-- Outcome of the `confirm_delete` branch. -/
inductive ConfirmDeleteResult where
  | errorNoPending
  | deleted (desc : String)
  | alreadyGone
deriving DecidableEq, Repr

/-- Embedding of the `query.data == 'confirm_delete'` branch (lines 354-387):
with no pending id (Python falsiness: absent or empty) an error message is
shown and nothing changes; with a pending id, an existing task is removed
from the store and its jobs cancelled, a missing one is reported as already
gone; in both of those cases `delete_task_id` is popped. -/
def confirm_delete (uid : Nat) (st : BotState) : ConfirmDeleteResult × BotState :=
  let ud := getUD st uid
  match ud.deleteTaskId with
  | none => (.errorNoPending, st)
  | some tid =>
    if tid == "" then (.errorNoPending, st)
    else
      let tasks := lookupTasks st uid
      match tasks.find? (fun t => t.id == tid) with
      | some task =>
        let st1 := setTasks st uid (dictDelTask tasks tid)
        let st2 := { st1 with jobs := cancelJobs st1.jobs tid }
        (.deleted task.description, setUD st2 uid { getUD st2 uid with deleteTaskId := none })
      | none =>
        (.alreadyGone, setUD st uid { ud with deleteTaskId := none })

/-- Embedding of the `query.data == 'cancel_delete'` branch (lines 389-395):
only `delete_task_id` is popped. -/
def cancel_delete (uid : Nat) (st : BotState) : BotState :=
  setUD st uid { getUD st uid with deleteTaskId := none }

/-! ## Task listing (`button_handler`, `view_tasks` branch, lines 269-283) -/

/-- Insert a task into an already-sorted list, before the first element whose
time is not earlier: the stable insertion step underlying
`sorted(tasks.values(), key=lambda x: x['time'])` (Python `sorted` is a
stable sort; aware datetimes compare by instant). -/
def insertByTime (t : Task) : List Task → List Task
  | [] => [t]
  | h :: rest => if h.time.utc < t.time.utc then h :: insertByTime t rest else t :: h :: rest

/-- Stable sort of a task list ascending by `time` (model of Python
`sorted(..., key=lambda x: x['time'])`). -/
def sortTasksByTime : List Task → List Task
  | [] => []
  | t :: rest => insertByTime t (sortTasksByTime rest)

/-- Embedding of the `view_tasks` branch: the listing order of
`sorted(tasks.values(), key=lambda x: x['time'])` over the insertion-ordered
store values. -/
def view_tasks (uid : Nat) (st : BotState) : List Task :=
  sortTasksByTime (lookupTasks st uid)

/-! ## The event loop as a transition system

Each observable event of the core mutates the state through exactly one of
the handlers above; a fired job additionally leaves the queue before its
callback runs. -/

/-- One inbound event of the core. Oracle outcomes, current instants and the
generated id travel with the event, since they are external inputs of the
corresponding handler. -/
inductive Op where
  | city (uid : Nat) (resolvedTz : Option String) (nowUtc : Int)
  | msg (uid : Nat) (extracted : Option String × Option String) (nowUtc : Int) (freshId : String)
  | selDel (uid : Nat) (tid : String)
  | confDel (uid : Nat)
  | cancelDel (uid : Nat)
  | fire (j : Job) (deliveryOk : Bool)

/-- State transition of one event. -/
def step (strptime : String → Option Int) (offset : String → Int → Int)
    (st : BotState) : Op → BotState
  | .city uid r now => (receive_city uid r now st).2
  | .msg uid ex now fid => (handle_message strptime offset uid ex now fid st).2
  | .selDel uid tid => (select_delete uid tid st).2
  | .confDel uid => (confirm_delete uid st).2
  | .cancelDel uid => cancel_delete uid st
  | .fire j ok =>
    let st1 := { st with jobs := st.jobs.erase j }
    (send_reminder ok j.user j.taskId st1).2

/-- Run a sequence of events. -/
def run (strptime : String → Option Int) (offset : String → Int → Int)
    (st : BotState) : List Op → BotState
  | [] => st
  | op :: rest => run strptime offset (step strptime offset st op) rest

/-- Side conditions the environment guarantees for an event: the id produced
by `str(uuid.uuid4())[:8]` for a new task is fresh (the spec's
`generates a fresh unique id`), and only a pending job can fire. -/
def opValid (st : BotState) : Op → Prop
  | .msg _ _ _ fid => ∀ j ∈ st.jobs, j.name ≠ fid
  | .fire j _ => j ∈ st.jobs
  | _ => True

/-- Validity of a whole event sequence from a state. -/
def ValidOps (strptime : String → Option Int) (offset : String → Int → Int)
    (st : BotState) : List Op → Prop
  | [] => True
  | op :: rest => opValid st op ∧ ValidOps strptime offset (step strptime offset st op) rest

/-- Number of pending jobs registered under a given name. -/
def jobCount (jobs : List Job) (nm : String) : Nat :=
  (jobs.filter (fun j => j.name == nm)).length

/-- At most one pending job per registration name. -/
def AtMostOne (jobs : List Job) : Prop :=
  ∀ nm : String, jobCount jobs nm ≤ 1

/-- The at-most-one-job invariant of a state. -/
def JobInvariant (st : BotState) : Prop :=
  AtMostOne st.jobs

/-! ## Frame lemmas about the state accessors -/

theorem setTasks_jobs (st : BotState) (uid : Nat) (l : List Task) :
    (setTasks st uid l).jobs = st.jobs := by
  unfold setTasks; split <;> rfl

theorem setTasks_userData (st : BotState) (uid : Nat) (l : List Task) :
    (setTasks st uid l).userData = st.userData := by
  unfold setTasks; split <;> rfl

theorem setUD_jobs (st : BotState) (uid : Nat) (ud : UserData) :
    (setUD st uid ud).jobs = st.jobs := by
  unfold setUD; split <;> rfl

theorem setUD_user_tasks (st : BotState) (uid : Nat) (ud : UserData) :
    (setUD st uid ud).user_tasks = st.user_tasks := by
  unfold setUD; split <;> rfl

theorem lookupTasks_setUD (st : BotState) (uid uid' : Nat) (ud : UserData) :
    lookupTasks (setUD st uid ud) uid' = lookupTasks st uid' := by
  unfold lookupTasks; rw [setUD_user_tasks]

theorem getUD_setTasks (st : BotState) (uid uid' : Nat) (l : List Task) :
    getUD (setTasks st uid l) uid' = getUD st uid' := by
  unfold getUD; rw [setTasks_userData]

theorem assoc_find_replace {α : Type} (uid : Nat) (v : α) :
    ∀ l : List (Nat × α), l.any (fun p => p.1 == uid) = true →
      (l.map (fun p => if p.1 == uid then (uid, v) else p)).find? (fun p => p.1 == uid)
        = some (uid, v)
  | [], h => by simp at h
  | a :: rest, h => by
    by_cases ha : a.1 = uid
    · simp [List.map_cons, ha]
    · have ha' : (a.1 == uid) = false := beq_eq_false_iff_ne.mpr ha
      have hrest : rest.any (fun p => p.1 == uid) = true := by
        rw [List.any_cons, ha'] at h
        simpa using h
      simp only [List.map_cons, ha', if_neg, Bool.false_eq_true, not_false_eq_true,
        List.find?_cons_of_neg, assoc_find_replace uid v rest hrest]

theorem lookupTasks_setTasks_self (st : BotState) (uid : Nat) (l : List Task) :
    lookupTasks (setTasks st uid l) uid = l := by
  unfold lookupTasks setTasks
  by_cases h : st.user_tasks.any (fun p => p.1 == uid) = true
  · rw [if_pos h]
    show ((List.find? _ _).map Prod.snd).getD [] = l
    rw [assoc_find_replace uid l st.user_tasks h]
    rfl
  · rw [if_neg h]
    have hnone : st.user_tasks.find? (fun p => p.1 == uid) = none :=
      List.find?_eq_none.mpr (fun x hx hpx => h (List.any_eq_true.mpr ⟨x, hx, hpx⟩))
    show ((List.find? _ (_ ++ [(uid, l)])).map Prod.snd).getD [] = l
    rw [List.find?_append, hnone]
    simp

theorem getUD_setUD_self (st : BotState) (uid : Nat) (ud : UserData) :
    getUD (setUD st uid ud) uid = ud := by
  unfold getUD setUD
  by_cases h : st.userData.any (fun p => p.1 == uid) = true
  · rw [if_pos h]
    show ((List.find? _ _).map Prod.snd).getD _ = ud
    rw [assoc_find_replace uid ud st.userData h]
    rfl
  · rw [if_neg h]
    have hnone : st.userData.find? (fun p => p.1 == uid) = none :=
      List.find?_eq_none.mpr (fun x hx hpx => h (List.any_eq_true.mpr ⟨x, hx, hpx⟩))
    show ((List.find? _ (_ ++ [(uid, ud)])).map Prod.snd).getD _ = ud
    rw [List.find?_append, hnone]
    simp

theorem send_reminder_jobs (ok : Bool) (uid : Nat) (tid : String) (st : BotState) :
    ((send_reminder ok uid tid st).2).jobs = st.jobs := by
  unfold send_reminder
  cases (lookupTasks st uid).find? (fun t => t.id == tid) <;> simp [setTasks_jobs]

/-! ## Job-count lemmas -/

theorem jobCount_cancelJobs_self (jobs : List Job) (nm : String) :
    jobCount (cancelJobs jobs nm) nm = 0 := by
  unfold jobCount cancelJobs
  rw [List.filter_filter]
  have hz : ∀ j : Job, ((j.name == nm) && (j.name != nm)) = false := by
    intro j; cases h : j.name == nm <;> simp [bne, h]
  rw [List.filter_congr (fun j _ => hz j)]
  simp

theorem jobCount_cancelJobs_le (jobs : List Job) (cancelled nm : String) :
    jobCount (cancelJobs jobs cancelled) nm ≤ jobCount jobs nm :=
  (((List.filter_sublist jobs).filter _)).length_le

theorem jobCount_runOnce (jobs : List Job) (j : Job) (nm : String) :
    jobCount (runOnce jobs j) nm = jobCount jobs nm + (if j.name == nm then 1 else 0) := by
  unfold jobCount runOnce
  rw [List.filter_append, List.length_append]
  cases h : j.name == nm <;> simp [List.filter, h]

theorem jobCount_erase_le (jobs : List Job) (j : Job) (nm : String) :
    jobCount (jobs.erase j) nm ≤ jobCount jobs nm :=
  ((List.erase_sublist j jobs).filter _).length_le

theorem jobCount_eq_zero_of_fresh {jobs : List Job} {fid : String}
    (hfresh : ∀ j ∈ jobs, j.name ≠ fid) : jobCount jobs fid = 0 := by
  unfold jobCount
  rw [List.filter_eq_nil_iff.mpr (fun j hj => by simpa using hfresh j hj)]
  rfl

/-! ## Preservation of the at-most-one-job invariant by every handler -/

theorem atMostOne_cancelJobs {jobs : List Job} (h : AtMostOne jobs) (nm : String) :
    AtMostOne (cancelJobs jobs nm) :=
  fun nm' => le_trans (jobCount_cancelJobs_le jobs nm nm') (h nm')

theorem atMostOne_reconcileTask {jobs : List Job} (h : AtMostOne jobs)
    (uid : Nat) (tz : String) (now : Int) (t : Task) :
    AtMostOne (reconcileTask uid tz now jobs t).2 := by
  intro nm
  show jobCount (runOnce (cancelJobs jobs t.id) _) nm ≤ 1
  rw [jobCount_runOnce]
  by_cases hnm : t.id = nm
  · subst hnm
    rw [jobCount_cancelJobs_self]
    simp
  · have : (t.id == nm) = false := beq_eq_false_iff_ne.mpr hnm
    rw [this]
    simpa using le_trans (jobCount_cancelJobs_le jobs t.id nm) (h nm)

theorem atMostOne_reconcileTasks (uid : Nat) (tz : String) (now : Int) :
    ∀ (ts : List Task) (jobs : List Job), AtMostOne jobs →
      AtMostOne (reconcileTasks uid tz now ts jobs).2
  | [], _, h => h
  | t :: rest, jobs, h => by
    show AtMostOne (reconcileTasks uid tz now rest (reconcileTask uid tz now jobs t).2).2
    exact atMostOne_reconcileTasks uid tz now rest _ (atMostOne_reconcileTask h uid tz now t)

theorem jobInvariant_receive_city {st : BotState} (h : JobInvariant st)
    (uid : Nat) (r : Option String) (now : Int) :
    JobInvariant (receive_city uid r now st).2 := by
  unfold receive_city
  match r with
  | none => exact h
  | some tzStr =>
    simp only []
    split
    · show JobInvariant (setTasks _ _ _)
      unfold JobInvariant
      rw [setTasks_jobs]
      exact atMostOne_reconcileTasks uid tzStr now _ _ (by rwa [setUD_jobs])
    · show JobInvariant (setUD _ _ _)
      unfold JobInvariant
      rwa [setUD_jobs]

theorem jobInvariant_handle_message {st : BotState} (h : JobInvariant st)
    (strptime : String → Option Int) (offset : String → Int → Int)
    (uid : Nat) (ex : Option String × Option String) (now : Int) (fid : String)
    (hfresh : ∀ j ∈ st.jobs, j.name ≠ fid) :
    JobInvariant (handle_message strptime offset uid ex now fid st).2 := by
  unfold handle_message
  match hud : (getUD st uid).timezone with
  | none => exact h
  | some tzStr =>
    match ex with
    | (none, _) => exact h
    | (some _, none) => exact h
    | (some desc, some timeStr) =>
      simp only []
      split
      · exact h
      · match hp : strptime timeStr with
        | none => exact h
        | some naive =>
          simp only []
          split
          · exact h
          · intro nm
            show jobCount (runOnce (setTasks st uid _).jobs _) nm ≤ 1
            rw [jobCount_runOnce, setTasks_jobs]
            by_cases hnm : fid = nm
            · subst hnm
              rw [jobCount_eq_zero_of_fresh hfresh]
              simp
            · have : (fid == nm) = false := beq_eq_false_iff_ne.mpr hnm
              rw [this]
              simpa using h nm

theorem jobInvariant_select_delete {st : BotState} (h : JobInvariant st)
    (uid : Nat) (tid : String) : JobInvariant (select_delete uid tid st).2 := by
  unfold select_delete
  cases (lookupTasks st uid).find? (fun t => t.id == tid) with
  | none => exact h
  | some task =>
    show JobInvariant (setUD _ _ _)
    unfold JobInvariant
    rwa [setUD_jobs]

theorem jobInvariant_confirm_delete {st : BotState} (h : JobInvariant st)
    (uid : Nat) : JobInvariant (confirm_delete uid st).2 := by
  unfold confirm_delete
  dsimp only
  split
  · exact h
  · split
    · exact h
    · split
      · show JobInvariant (setUD _ _ _)
        unfold JobInvariant
        rw [setUD_jobs]
        show AtMostOne (cancelJobs (setTasks _ _ _).jobs _)
        rw [setTasks_jobs]
        exact atMostOne_cancelJobs h _
      · show JobInvariant (setUD _ _ _)
        unfold JobInvariant
        rwa [setUD_jobs]

theorem jobInvariant_cancel_delete {st : BotState} (h : JobInvariant st)
    (uid : Nat) : JobInvariant (cancel_delete uid st) := by
  unfold cancel_delete JobInvariant
  rwa [setUD_jobs]

theorem jobInvariant_step {st : BotState} (h : JobInvariant st)
    (strptime : String → Option Int) (offset : String → Int → Int)
    (op : Op) (hv : opValid st op) :
    JobInvariant (step strptime offset st op) := by
  match op with
  | .city uid r now => exact jobInvariant_receive_city h uid r now
  | .msg uid ex now fid => exact jobInvariant_handle_message h strptime offset uid ex now fid hv
  | .selDel uid tid => exact jobInvariant_select_delete h uid tid
  | .confDel uid => exact jobInvariant_confirm_delete h uid
  | .cancelDel uid => exact jobInvariant_cancel_delete h uid
  | .fire j ok =>
    intro nm
    show jobCount ((send_reminder ok j.user j.taskId { st with jobs := st.jobs.erase j }).2).jobs nm ≤ 1
    rw [send_reminder_jobs]
    exact le_trans (jobCount_erase_le st.jobs j nm) (h nm)

theorem jobInvariant_run (strptime : String → Option Int) (offset : String → Int → Int) :
    ∀ (ops : List Op) (st : BotState), JobInvariant st →
      ValidOps strptime offset st ops → JobInvariant (run strptime offset st ops)
  | [], _, h, _ => h
  | op :: rest, _, h, hv =>
    jobInvariant_run strptime offset rest _
      (jobInvariant_step h strptime offset op hv.1) hv.2

/-- Helper: in a task list with pairwise-distinct ids, after `del tasks[tid]`
no element with id `tid` remains. -/
theorem eraseP_id_ne (tid : String) :
    ∀ l : List Task, l.Pairwise (fun a b => a.id ≠ b.id) →
      ∀ t' ∈ l.eraseP (fun x => x.id == tid), t'.id ≠ tid
  | [], _, t', ht' => by simp at ht'
  | a :: rest, hp, t', ht' => by
    by_cases ha : a.id = tid
    · rw [List.eraseP_cons, show (a.id == tid) = true by simpa using ha, Bool.cond_true] at ht'
      intro heq
      exact (List.pairwise_cons.mp hp).1 t' ht' (ha.trans heq.symm)
    · rw [List.eraseP_cons, show (a.id == tid) = false by simpa using ha,
        Bool.cond_false] at ht'
      rcases List.mem_cons.mp ht' with h1 | h1
      · rw [h1]; exact ha
      · exact eraseP_id_ne tid rest (List.pairwise_cons.mp hp).2 t' h1

/-! ## The claims -/

/-- C3: after any valid sequence of events from a state with at most one
pending job per task id, every reachable observation point again has at most
one pending job per task id; and the reconciliation of one task is literally
cancel-every-job-under-the-id followed by registering one fresh job under
that id. -/
theorem C3_at_most_one_job (strptime : String → Option Int) (offset : String → Int → Int)
    (st : BotState) (ops : List Op)
    (hinv : JobInvariant st) (hvalid : ValidOps strptime offset st ops) :
    JobInvariant (run strptime offset st ops) ∧
    ∀ (uid : Nat) (newTz : String) (nowUtc : Int) (jobs : List Job) (t : Task),
      (reconcileTask uid newTz nowUtc jobs t).2 =
        runOnce (cancelJobs jobs t.id)
          ⟨t.id, uid, t.id, (astimezone (astimezone t.time "UTC") newTz).utc - nowUtc⟩ :=
  ⟨jobInvariant_run strptime offset ops st hinv hvalid, fun _ _ _ _ _ => rfl⟩

/-- Witness for C3 at a concrete run: one task creation followed by a
timezone change. -/
theorem C3_at_most_one_job_witness :
    JobInvariant (run (fun _ => some 60) (fun _ _ => 0) ⟨[], [], []⟩
      [Op.city 1 (some "Europe/Paris") 0]) :=
  (C3_at_most_one_job (fun _ => some 60) (fun _ _ => 0) ⟨[], [], []⟩
    [Op.city 1 (some "Europe/Paris") 0]
    (fun _ => Nat.zero_le 1) ⟨trivial, trivial⟩).1

/-- C4: when a scheduled job fires and its `(userId, taskId)` payload no
longer matches a stored task, the fire handler delivers nothing and leaves
the state untouched. -/
theorem C4_stale_job_fire (ok : Bool) (uid : Nat) (tid : String) (st : BotState)
    (habsent : ∀ t ∈ lookupTasks st uid, t.id ≠ tid) :
    send_reminder ok uid tid st = ([], st) := by
  unfold send_reminder
  rw [List.find?_eq_none.mpr (fun t ht => by simpa using habsent t ht)]

/-- Witness for C4: a fire for a deleted task id on a store holding an
unrelated task. -/
theorem C4_stale_job_fire_witness :
    send_reminder true 1 "abc" ⟨[(1, [⟨"xyz", "d", ⟨5, "UTC"⟩⟩])], [], []⟩ =
      ([], ⟨[(1, [⟨"xyz", "d", ⟨5, "UTC"⟩⟩])], [], []⟩) :=
  C4_stale_job_fire true 1 "abc" _ (by decide)

/-- C10: when a scheduled job fires and its task still exists, the fire
handler removes the task from the store whether or not delivery raised. -/
theorem C10_fire_always_deletes (ok : Bool) (uid : Nat) (tid : String) (st : BotState)
    (task : Task)
    (hids : (lookupTasks st uid).Pairwise (fun a b => a.id ≠ b.id))
    (hfound : (lookupTasks st uid).find? (fun t => t.id == tid) = some task) :
    ∀ t' ∈ lookupTasks (send_reminder ok uid tid st).2 uid, t'.id ≠ tid := by
  unfold send_reminder
  rw [hfound]
  dsimp only
  rw [lookupTasks_setTasks_self]
  exact eraseP_id_ne tid (lookupTasks st uid) hids

/-- Witness for C10: firing with failed delivery (`ok = false`) on a store
holding the fired task and one other task leaves only the other task, whose
id the instantiated theorem separates from the fired id. -/
theorem C10_fire_always_deletes_witness :
    (Task.mk "xyz" "e" ⟨6, "UTC"⟩).id ≠ "abc" :=
  C10_fire_always_deletes false 1 "abc"
    ⟨[(1, [⟨"abc", "d", ⟨5, "UTC"⟩⟩, ⟨"xyz", "e", ⟨6, "UTC"⟩⟩])], [], []⟩
    ⟨"abc", "d", ⟨5, "UTC"⟩⟩ (by decide) (by decide)
    ⟨"xyz", "e", ⟨6, "UTC"⟩⟩ (by decide)

/-- C5: the timezone resolver only ever produces a member of the canonical
timezone identifier set (the stripped oracle reply) or the `None` sentinel,
and an oracle error is treated identically to an unknown timezone. -/
theorem C5_resolver_canonical (allTimezones : List String) (reply : Except Unit String) :
    (∀ tz, get_timezone_via_gpt allTimezones reply = some tz → tz ∈ allTimezones) ∧
    (∀ e : Unit, get_timezone_via_gpt allTimezones (.error e) = none) := by
  refine ⟨?_, fun _ => rfl⟩
  intro tz h
  unfold get_timezone_via_gpt at h
  match reply with
  | .error _ => exact absurd h (by simp)
  | .ok raw =>
    dsimp only at h
    split at h
    · next hc =>
      cases h
      simpa using hc
    · exact absurd h (by simp)

/-- Witness for C5: a quoted, padded reply resolves into the canonical set;
an oracle error yields the sentinel. -/
theorem C5_resolver_canonical_witness :
    ("Europe/Paris" ∈ ["Europe/Paris", "America/New_York"]) ∧
    get_timezone_via_gpt ["Europe/Paris", "America/New_York"] (.error ()) = none :=
  ⟨(C5_resolver_canonical ["Europe/Paris", "America/New_York"]
      (.ok " Europe/Paris ")).1 "Europe/Paris" (by decide),
    (C5_resolver_canonical ["Europe/Paris", "America/New_York"] (.error ())).2 ()⟩

/-- Helper: the reconciliation loop rewrites each task's time by converting
to UTC and re-anchoring in the new zone, independently of the job queue it
threads. -/
theorem reconcileTasks_fst (uid : Nat) (tz : String) (now : Int) :
    ∀ (ts : List Task) (jobs : List Job),
      (reconcileTasks uid tz now ts jobs).1 =
        ts.map (fun t => { t with time := astimezone (astimezone t.time "UTC") tz })
  | [], _ => rfl
  | t :: rest, jobs => by
    simp only [reconcileTasks, List.map_cons]
    rw [reconcileTasks_fst uid tz now rest]
    rfl

/-- Helper: on a timezone change with an existing, different previous zone,
`receive_city` runs the reconciliation branch. -/
theorem receive_city_reconcile (uid : Nat) (tzStr prevTz : String) (now : Int)
    (st : BotState) (hprev : (getUD st uid).timezone = some prevTz)
    (hne : prevTz ≠ "") (hdiff : prevTz ≠ tzStr) :
    (receive_city uid (some tzStr) now st).2 =
      setTasks
        { setUD st uid { getUD st uid with timezone := some tzStr } with
          jobs := (reconcileTasks uid tzStr now
            (lookupTasks (setUD st uid { getUD st uid with timezone := some tzStr }) uid)
            (setUD st uid { getUD st uid with timezone := some tzStr }).jobs).2 }
        uid
        (reconcileTasks uid tzStr now
          (lookupTasks (setUD st uid { getUD st uid with timezone := some tzStr }) uid)
          (setUD st uid { getUD st uid with timezone := some tzStr }).jobs).1 := by
  unfold receive_city
  dsimp only
  rw [hprev]
  dsimp only
  rw [show (prevTz != "" && prevTz != tzStr) = true by
    simp [bne_iff_ne, hne, hdiff]]
  rfl

/-- Helper: with no previous timezone, or with the previous timezone equal to
the new one, `receive_city` only records the timezone in `user_data`. -/
theorem receive_city_no_reconcile (uid : Nat) (tzStr : String) (now : Int)
    (st : BotState)
    (h : (getUD st uid).timezone = none ∨ (getUD st uid).timezone = some tzStr) :
    (receive_city uid (some tzStr) now st).2 =
      setUD st uid { getUD st uid with timezone := some tzStr } := by
  unfold receive_city
  dsimp only
  rcases h with h | h
  · rw [h]
    dsimp only
    rw [if_neg (by simp : ¬(false = true))]
  · rw [h]
    dsimp only
    rw [if_neg (by simp : ¬((tzStr != "" && tzStr != tzStr) = true))]

/-- C1: for every task owned by the user, reconciliation from a different
previous timezone rewrites the stored time so that converting the new value
back to UTC yields exactly the same UTC instant as converting the old value,
with id and description intact. -/
theorem C1_roundtrip (uid : Nat) (tzStr prevTz : String) (now : Int) (st : BotState)
    (hprev : (getUD st uid).timezone = some prevTz)
    (hne : prevTz ≠ "") (hdiff : prevTz ≠ tzStr)
    (t : Task) (ht : t ∈ lookupTasks st uid) :
    ∃ t' ∈ lookupTasks (receive_city uid (some tzStr) now st).2 uid,
      t'.id = t.id ∧ t'.description = t.description ∧
      astimezone t'.time "UTC" = astimezone t.time "UTC" := by
  rw [receive_city_reconcile uid tzStr prevTz now st hprev hne hdiff,
    lookupTasks_setTasks_self, reconcileTasks_fst, lookupTasks_setUD]
  exact ⟨{ t with time := astimezone (astimezone t.time "UTC") tzStr },
    List.mem_map_of_mem _ ht, rfl, rfl, rfl⟩

/-- Witness for C1: a Paris task surviving a move to New York keeps its UTC
instant. -/
theorem C1_roundtrip_witness :
    ∃ t' ∈ lookupTasks (receive_city 1 (some "America/New_York") 0
      ⟨[(1, [⟨"abc", "call", ⟨100, "Europe/Paris"⟩⟩])], [],
        [(1, ⟨some "Europe/Paris", none⟩)]⟩).2 1,
      t'.id = "abc" ∧ t'.description = "call" ∧
      astimezone t'.time "UTC" = astimezone (AwareDT.mk 100 "Europe/Paris") "UTC" :=
  C1_roundtrip 1 "America/New_York" "Europe/Paris" 0
    ⟨[(1, [⟨"abc", "call", ⟨100, "Europe/Paris"⟩⟩])], [],
      [(1, ⟨some "Europe/Paris", none⟩)]⟩
    (by decide) (by decide) (by decide)
    ⟨"abc", "call", ⟨100, "Europe/Paris"⟩⟩ (by decide)

/-- C8: on a first-time timezone set and on a re-set to the same timezone,
the task store and the job queue are left completely unchanged. -/
theorem C8_no_reconcile_frame (uid : Nat) (tzStr : String) (now : Int) (st : BotState)
    (h : (getUD st uid).timezone = none ∨ (getUD st uid).timezone = some tzStr) :
    (receive_city uid (some tzStr) now st).2.user_tasks = st.user_tasks ∧
    (receive_city uid (some tzStr) now st).2.jobs = st.jobs := by
  rw [receive_city_no_reconcile uid tzStr now st h]
  exact ⟨setUD_user_tasks st uid _, setUD_jobs st uid _⟩

/-- Witness for C8: a first-time set leaves an existing store and queue
alone. -/
theorem C8_no_reconcile_frame_witness :
    (receive_city 1 (some "Europe/Paris") 0
      ⟨[(1, [⟨"abc", "call", ⟨100, "UTC"⟩⟩])], [⟨"abc", 1, "abc", 7⟩], []⟩).2.user_tasks =
      [(1, [⟨"abc", "call", ⟨100, "UTC"⟩⟩])] ∧
    (receive_city 1 (some "Europe/Paris") 0
      ⟨[(1, [⟨"abc", "call", ⟨100, "UTC"⟩⟩])], [⟨"abc", 1, "abc", 7⟩], []⟩).2.jobs =
      [⟨"abc", 1, "abc", 7⟩] :=
  C8_no_reconcile_frame 1 "Europe/Paris" 0
    ⟨[(1, [⟨"abc", "call", ⟨100, "UTC"⟩⟩])], [⟨"abc", 1, "abc", 7⟩], []⟩
    (Or.inl (by decide))

/-- C2: with a parsed, localized task time, the creation pipeline rejects a
time less than or equal to `now` with `NotFuture` and inserts nothing, and
any task it does create carries a time strictly greater than `now`. -/
theorem C2_not_future (strptime : String → Option Int) (offset : String → Int → Int)
    (uid : Nat) (nowUtc : Int) (fid : String) (st : BotState)
    (tzStr desc timeStr : String) (naive : Int)
    (htz : (getUD st uid).timezone = some tzStr)
    (hdesc : desc ≠ "") (hts : timeStr ≠ "")
    (hparse : strptime timeStr = some naive) :
    ((localize offset tzStr naive).utc ≤ nowUtc →
      handle_message strptime offset uid (some desc, some timeStr) nowUtc fid st =
        (.notFuture, st)) ∧
    (∀ t : Task,
      (handle_message strptime offset uid (some desc, some timeStr) nowUtc fid st).1 =
        .created t → nowUtc < t.time.utc) := by
  unfold handle_message
  rw [htz]
  dsimp only
  rw [if_neg (by simp [hdesc, hts] : ¬((desc == "" || timeStr == "") = true)), hparse]
  dsimp only
  by_cases hle : (localize offset tzStr naive).utc ≤ nowUtc
  · rw [if_pos hle]
    exact ⟨fun _ => rfl, fun t h => absurd h (by simp)⟩
  · rw [if_neg hle]
    refine ⟨fun h => absurd h hle, fun t h => ?_⟩
    cases h
    exact not_le.mp hle

/-- Witness for C2: an equal-to-now time is rejected and a later time yields
a strictly future task. -/
theorem C2_not_future_witness :
    (handle_message (fun _ => some 50) (fun _ _ => 0) 1 (some "call", some "ts") 50 "abc"
      ⟨[], [], [(1, ⟨some "UTC", none⟩)]⟩ = (.notFuture, ⟨[], [], [(1, ⟨some "UTC", none⟩)]⟩)) :=
  (C2_not_future (fun _ => some 50) (fun _ _ => 0) 1 50 "abc"
    ⟨[], [], [(1, ⟨some "UTC", none⟩)]⟩ "UTC" "call" "ts" 50
    (by decide) (by decide) (by decide) rfl).1 (by decide)

/-- Helper: the listing and the store only depend on the `user_tasks`
field. -/
theorem lookupTasks_congr {st st' : BotState} (h : st.user_tasks = st'.user_tasks)
    (uid : Nat) : lookupTasks st uid = lookupTasks st' uid := by
  unfold lookupTasks; rw [h]

/-- Helper: a creation attempt whose extraction result has a missing
component never creates a task and never changes the state. -/
theorem handle_message_extract_failed (strptime : String → Option Int)
    (offset : String → Int → Int) (uid : Nat) (nowUtc : Int) (fid : String)
    (st : BotState) :
    ∀ ex : Option String × Option String, ex.1 = none ∨ ex.2 = none →
      (handle_message strptime offset uid ex nowUtc fid st).2 = st ∧
      ∀ t : Task,
        (handle_message strptime offset uid ex nowUtc fid st).1 ≠ .created t := by
  intro ex hex
  unfold handle_message
  cases htz : (getUD st uid).timezone with
  | none => exact ⟨rfl, fun t => by simp⟩
  | some tzStr =>
    dsimp only
    match ex, hex with
    | (none, _), _ => exact ⟨rfl, fun t => by simp⟩
    | (some _, none), _ => exact ⟨rfl, fun t => by simp⟩
    | (some _, some _), h => rcases h with h | h <;> simp at h

/-- Counterexample for C6 as stated: a well-formed JSON object with three
fields — not exactly the two fields `task` and `time` — is nevertheless
accepted by the extractor, and the creation pipeline then creates a task
from it. -/
theorem C6_counterexample :
    extract_task_and_time (.ok (.obj
      [("task", "call Alice"), ("time", "2024-03-01 11:30:00"), ("extra", "x")])) =
      (some "call Alice", some "2024-03-01 11:30:00") ∧
    (handle_message (fun _ => some 100) (fun _ _ => 0) 1
      (extract_task_and_time (.ok (.obj
        [("task", "call Alice"), ("time", "2024-03-01 11:30:00"), ("extra", "x")])))
      0 "abc" ⟨[], [], [(1, ⟨some "Europe/Paris", none⟩)]⟩).1 =
      .created ⟨"abc", "call Alice", ⟨100, "Europe/Paris"⟩⟩ :=
  ⟨rfl, rfl⟩

/-- C6 (amended): the extractor accepts a reply only if it is a well-formed
structured object containing the fields `task` and `time` (additional fields
are ignored); an oracle error, a malformed or non-object reply, or a missing
field yields a `None` component, and in every such case no task is created
and the state is unchanged. -/
theorem C6_extract_failure_no_creation (strptime : String → Option Int)
    (offset : String → Int → Int) (uid : Nat) (nowUtc : Int) (fid : String)
    (st : BotState) (reply : Except Unit PyJson) :
    (∀ e : Unit, extract_task_and_time (.error e) = (none, none)) ∧
    (extract_task_and_time (.ok .nonObj) = (none, none)) ∧
    (∀ fields a b, jsonGet fields "task" = some a → jsonGet fields "time" = some b →
      extract_task_and_time (.ok (.obj fields)) = (some a, some b)) ∧
    ((extract_task_and_time reply).1 = none ∨ (extract_task_and_time reply).2 = none →
      (handle_message strptime offset uid (extract_task_and_time reply) nowUtc fid st).2 = st ∧
      ∀ t : Task,
        (handle_message strptime offset uid (extract_task_and_time reply) nowUtc fid st).1 ≠
          .created t) := by
  refine ⟨fun _ => rfl, rfl, fun fields a b ha hb => ?_, fun hfail =>
    handle_message_extract_failed strptime offset uid nowUtc fid st _ hfail⟩
  unfold extract_task_and_time
  dsimp only
  rw [ha, hb]

/-- Witness for C6 (amended): a reply missing the `time` field yields a
failure and creates nothing. -/
theorem C6_extract_failure_no_creation_witness :
    (handle_message (fun _ => some 100) (fun _ _ => 0) 1
      (extract_task_and_time (.ok (.obj [("task", "call Alice")])))
      0 "abc" ⟨[], [], [(1, ⟨some "Europe/Paris", none⟩)]⟩).2 =
      ⟨[], [], [(1, ⟨some "Europe/Paris", none⟩)]⟩ :=
  ((C6_extract_failure_no_creation (fun _ => some 100) (fun _ _ => 0) 1 0 "abc"
    ⟨[], [], [(1, ⟨some "Europe/Paris", none⟩)]⟩
    (.ok (.obj [("task", "call Alice")]))).2.2.2 (Or.inr rfl)).1

/-- C7: deleting an existing task removes it from the store, cancels its
scheduled jobs and reports success; deleting a missing or already-deleted
task id reports the task as already gone and changes nothing, so a second
delete of the same id reports absence, not failure. -/
theorem C7_delete_idempotent (uid : Nat) (tid : String) (st : BotState)
    (hpending : (getUD st uid).deleteTaskId = some tid) (htid : tid ≠ "")
    (hids : (lookupTasks st uid).Pairwise (fun a b => a.id ≠ b.id)) :
    (∀ task, (lookupTasks st uid).find? (fun t => t.id == tid) = some task →
      (confirm_delete uid st).1 = .deleted task.description ∧
      (∀ t' ∈ lookupTasks (confirm_delete uid st).2 uid, t'.id ≠ tid) ∧
      (∀ j ∈ (confirm_delete uid st).2.jobs, j.name ≠ tid) ∧
      (select_delete uid tid (confirm_delete uid st).2).1 = .alreadyGone ∧
      (select_delete uid tid (confirm_delete uid st).2).2 = (confirm_delete uid st).2) ∧
    ((lookupTasks st uid).find? (fun t => t.id == tid) = none →
      (confirm_delete uid st).1 = .alreadyGone ∧
      lookupTasks (confirm_delete uid st).2 uid = lookupTasks st uid ∧
      (confirm_delete uid st).2.jobs = st.jobs) := by
  unfold confirm_delete
  dsimp only
  rw [hpending]
  dsimp only
  rw [if_neg (by simpa using htid : ¬((tid == "") = true))]
  cases hfind : (lookupTasks st uid).find? (fun t => t.id == tid) with
  | some task0 =>
    constructor
    · intro task htask
      cases htask
      have heq2 : lookupTasks
          { user_tasks := (setTasks st uid (dictDelTask (lookupTasks st uid) tid)).user_tasks,
            jobs := cancelJobs (setTasks st uid (dictDelTask (lookupTasks st uid) tid)).jobs tid,
            userData := (setTasks st uid (dictDelTask (lookupTasks st uid) tid)).userData }
          uid = dictDelTask (lookupTasks st uid) tid :=
        lookupTasks_setTasks_self st uid _
      have habs : ∀ t' ∈ dictDelTask (lookupTasks st uid) tid, t'.id ≠ tid :=
        eraseP_id_ne tid (lookupTasks st uid) hids
      have hfnone : (dictDelTask (lookupTasks st uid) tid).find? (fun t => t.id == tid) = none :=
        List.find?_eq_none.mpr (fun x hx => by simpa using habs x hx)
      refine ⟨rfl, ?_, ?_, ?_, ?_⟩
      · intro t' ht'
        rw [lookupTasks_setUD, heq2] at ht'
        exact habs t' ht'
      · intro j hj
        rw [setUD_jobs] at hj
        have hj' : j ∈ (setTasks st uid
            (dictDelTask (lookupTasks st uid) tid)).jobs.filter (fun x => x.name != tid) := hj
        rcases List.mem_filter.mp hj' with ⟨_, hne⟩
        simpa using hne
      · unfold select_delete
        rw [lookupTasks_setUD, heq2, hfnone]
      · unfold select_delete
        rw [lookupTasks_setUD, heq2, hfnone]
    · intro hnone
      cases hnone
  | none =>
    constructor
    · intro task htask
      cases htask
    · intro _
      refine ⟨rfl, ?_, ?_⟩
      · rw [lookupTasks_setUD]
      · rw [setUD_jobs]

/-- Witness for C7: deleting a stored task succeeds, the second attempt on
the same id reports it already gone. -/
theorem C7_delete_idempotent_witness :
    (confirm_delete 1
      ⟨[(1, [⟨"abc", "d", ⟨5, "UTC"⟩⟩])], [⟨"abc", 1, "abc", 7⟩],
        [(1, ⟨some "UTC", some "abc"⟩)]⟩).1 = .deleted "d" ∧
    (select_delete 1 "abc" (confirm_delete 1
      ⟨[(1, [⟨"abc", "d", ⟨5, "UTC"⟩⟩])], [⟨"abc", 1, "abc", 7⟩],
        [(1, ⟨some "UTC", some "abc"⟩)]⟩).2).1 = .alreadyGone :=
  ⟨((C7_delete_idempotent 1 "abc"
      ⟨[(1, [⟨"abc", "d", ⟨5, "UTC"⟩⟩])], [⟨"abc", 1, "abc", 7⟩],
        [(1, ⟨some "UTC", some "abc"⟩)]⟩ rfl (by decide) (by decide)).1
      ⟨"abc", "d", ⟨5, "UTC"⟩⟩ rfl).1,
    ((C7_delete_idempotent 1 "abc"
      ⟨[(1, [⟨"abc", "d", ⟨5, "UTC"⟩⟩])], [⟨"abc", 1, "abc", 7⟩],
        [(1, ⟨some "UTC", some "abc"⟩)]⟩ rfl (by decide) (by decide)).1
      ⟨"abc", "d", ⟨5, "UTC"⟩⟩ rfl).2.2.2.1⟩

/-- Helper: the stable insertion step is a permutation of consing. -/
theorem insertByTime_perm (t : Task) : ∀ l : List Task, (insertByTime t l).Perm (t :: l)
  | [] => List.Perm.refl _
  | h :: rest => by
    unfold insertByTime
    split
    · exact ((insertByTime_perm t rest).cons h).trans (List.Perm.swap t h rest)
    · exact List.Perm.refl _

/-- Helper: the listing order is a permutation of the store order. -/
theorem sortTasksByTime_perm : ∀ l : List Task, (sortTasksByTime l).Perm l
  | [] => List.Perm.refl _
  | t :: rest =>
    (insertByTime_perm t (sortTasksByTime rest)).trans ((sortTasksByTime_perm rest).cons t)

/-- Helper: inserting into a list sorted ascending by time keeps it
sorted. -/
theorem insertByTime_pairwise (t : Task) :
    ∀ l : List Task, l.Pairwise (fun a b => a.time.utc ≤ b.time.utc) →
      (insertByTime t l).Pairwise (fun a b => a.time.utc ≤ b.time.utc)
  | [], _ => by simp [insertByTime]
  | h :: rest, hl => by
    unfold insertByTime
    rcases List.pairwise_cons.mp hl with ⟨hhd, htl⟩
    split
    · next hlt =>
      refine List.pairwise_cons.mpr ⟨?_, insertByTime_pairwise t rest htl⟩
      intro x hx
      rcases List.mem_cons.mp ((insertByTime_perm t rest).mem_iff.mp hx) with hx' | hx'
      · rw [hx']; exact le_of_lt hlt
      · exact hhd x hx'
    · next hge =>
      refine List.pairwise_cons.mpr ⟨?_, hl⟩
      intro x hx
      have hth : t.time.utc ≤ h.time.utc := not_lt.mp hge
      rcases List.mem_cons.mp hx with hx' | hx'
      · rw [hx']; exact hth
      · exact le_trans hth (hhd x hx')

/-- Helper: the stable insertion step preserves, for every time value, the
subsequence of tasks carrying that value (inserting before strictly later
elements only commutes past elements with a different key). -/
theorem filter_insertByTime (v : Int) (t : Task) :
    ∀ l : List Task, (insertByTime t l).filter (fun x => x.time.utc == v) =
      ((t :: l).filter (fun x => x.time.utc == v))
  | [] => rfl
  | h :: rest => by
    unfold insertByTime
    split
    · next hlt =>
      have hne : h.time.utc ≠ t.time.utc := ne_of_lt hlt
      by_cases ph : h.time.utc = v <;> by_cases pt : t.time.utc = v
      · exact absurd (ph.trans pt.symm) hne
      · simp [List.filter_cons, ph, pt, filter_insertByTime v t rest]
      · simp [List.filter_cons, ph, pt, filter_insertByTime v t rest]
      · simp [List.filter_cons, ph, pt, filter_insertByTime v t rest]
    · rfl

/-- Helper: the sort preserves, for every time value, the subsequence of
tasks carrying that value — the stability of the listing order. -/
theorem filter_sortTasksByTime (v : Int) :
    ∀ l : List Task, (sortTasksByTime l).filter (fun x => x.time.utc == v) =
      l.filter (fun x => x.time.utc == v)
  | [] => rfl
  | t :: rest => by
    show (insertByTime t (sortTasksByTime rest)).filter _ = _
    rw [filter_insertByTime v t (sortTasksByTime rest)]
    simp only [List.filter_cons, filter_sortTasksByTime v rest]

/-- C9: listing a user's tasks returns exactly the stored tasks (a
permutation), sorted ascending by their `time`, and for tasks with equal
`time` the listing preserves the store's insertion order (the subsequence at
each time value is unchanged). -/
theorem C9_listing_sorted_stable (uid : Nat) (st : BotState) :
    (view_tasks uid st).Perm (lookupTasks st uid) ∧
    (view_tasks uid st).Pairwise (fun a b => a.time.utc ≤ b.time.utc) ∧
    ∀ v : Int, (view_tasks uid st).filter (fun t => t.time.utc == v) =
      (lookupTasks st uid).filter (fun t => t.time.utc == v) := by
  refine ⟨sortTasksByTime_perm _, ?_, fun v => filter_sortTasksByTime v _⟩
  unfold view_tasks
  generalize lookupTasks st uid = l
  induction l with
  | nil => simp [sortTasksByTime]
  | cons t rest ih => exact insertByTime_pairwise t (sortTasksByTime rest) ih

end TelegramBot
